import Mathlib

/-!
Shallow embedding of the IES (integrated energy system) network-construction
and constraint-formulation engine of `ies_simulation.py` (class `IESModel`),
together with theorems settling the specification claims about it.

Conventions of the embedding:
* Python's configuration dictionary `self.data` becomes an association list
  `Data` of string keys to `Val` (a scalar number or a time series); numbers
  are rationals.
* `dict.get(k)` is `getOpt`, `dict.get(k, d)` is `getDef`/`getNum`, and
  `dict[k]` (which raises `KeyError`) is `req`, returning `Except String`
  with the missing key as the error payload.
* PyPSA components keep the attributes the source sets, plus the PyPSA
  defaults the claims are about (`p_nom_extendable := false`,
  `capital_cost := 0` when unset).
* `IESModel.build_model` becomes `build_model`; the horizon (set in
  `IESModel.__init__` from `data.get('hours', 24)`) is passed as a natural
  number parameter.
* The custom-constraint closure `extra_functionality` inside `IESModel.solve`
  becomes `extra_functionality`, producing the binary mode variables and the
  heat-pump constraint rows it adds to the model.
* The solver-backend loop of `IESModel.solve` becomes `solveResult`/`solve`,
  parameterised over a backend behaviour `Option String → Except String String`
  (argument `none` is the unconfigured default `n.optimize()` call; the
  `Except.error` case is a raised exception, `Except.ok st` a returned status).
-/

/-- A value stored in the configuration dictionary: a scalar or a series. -/
inductive Val where
  | num : ℚ → Val
  | series : List ℚ → Val
deriving DecidableEq

/-- Scalar reading of a configuration value (component scalar attributes such
as `p_nom` and efficiencies hold numbers; the `series` case is never produced
by the configurations the source constructs for these attributes). -/
def Val.q : Val → ℚ
  | .num x => x
  | .series _ => 0

/-- The configuration record `self.data`: a string-keyed dictionary. -/
abbrev Data := List (String × Val)

/-- Python `data.get(k)`: `None` when the key is absent. -/
def getOpt (d : Data) (k : String) : Option Val := d.lookup k

/-- Python `data.get(k, v)`: default `v` when the key is absent. -/
def getDef (d : Data) (k : String) (v : Val) : Val := (d.lookup k).getD v

/-- Python `data.get(k, x)` for a numeric parameter with numeric default. -/
def getNum (d : Data) (k : String) (x : ℚ) : ℚ := (getDef d k (Val.num x)).q

/-- The Python exceptions `build_model` can raise: a dictionary `KeyError`
carrying the missing key, or the pandas `ValueError` raised inside `n.add`
when a list-valued per-snapshot attribute does not match the snapshot index
(carrying the list length and the index length). -/
inductive PyErr where
  | keyError : String → PyErr
  | valueError : ℕ → ℕ → PyErr
deriving DecidableEq

/-- Python `data[k]`: raises `KeyError k` when the key is absent. -/
def req (d : Data) (k : String) : Except PyErr Val :=
  match d.lookup k with
  | some v => Except.ok v
  | none => Except.error (PyErr.keyError k)

/-- Python `k in data`. -/
def hasKey (d : Data) (k : String) : Bool := (d.lookup k).isSome

/-- A value is acceptable for a per-snapshot attribute at the given horizon:
a scalar broadcasts, a series must have one entry per snapshot. -/
def seriesOk (hours : ℕ) : Val → Bool
  | Val.num _ => true
  | Val.series xs => xs.length == hours

/-- The pandas alignment `n.add` performs on a per-snapshot attribute value:
a scalar is broadcast over the snapshots, a list is aligned to the snapshot
index and raises `ValueError` when the lengths differ.  On success the
stored value is the value itself. -/
def alignSeries (hours : ℕ) (v : Val) : Except PyErr Val :=
  match v with
  | Val.num x => Except.ok (Val.num x)
  | Val.series xs =>
    if xs.length = hours then Except.ok (Val.series xs)
    else Except.error (PyErr.valueError xs.length hours)

/-- Alignment of an optional attribute value (`None` is stored untouched). -/
def alignOpt (hours : ℕ) : Option Val → Except PyErr (Option Val)
  | none => Except.ok none
  | some v => (alignSeries hours v).map some

/-- A bracket access `data[k]` whose value is then passed to `n.add` as a
per-snapshot attribute and aligned there. -/
def reqAligned (hours : ℕ) (d : Data) (k : String) : Except PyErr Val := do
  let v ← req d k
  alignSeries hours v

/-- A PyPSA bus as added by `build_model`. -/
structure Bus where
  name : String
  carrier : String
deriving DecidableEq

/-- A PyPSA generator with the attributes `build_model` sets, plus the PyPSA
defaults `p_nom = 0`, `p_nom_extendable = False`, `capital_cost = 0`. -/
structure Generator where
  name : String
  bus : String
  p_nom : ℚ := 0
  p_nom_extendable : Bool := false
  p_max_pu : Option Val := none
  marginal_cost : Option Val := none
  capital_cost : ℚ := 0
deriving DecidableEq

/-- A PyPSA load as added by `build_model`. -/
structure Load where
  name : String
  bus : String
  p_set : Val
deriving DecidableEq

/-- A PyPSA link with the attributes `build_model` sets, plus the PyPSA
defaults for the attributes it leaves unset. -/
structure Link where
  name : String
  bus0 : String
  bus1 : String
  bus2 : Option String := none
  p_nom : ℚ := 0
  p_nom_extendable : Bool := false
  efficiency : ℚ := 1
  efficiency2 : Option ℚ := none
  capital_cost : ℚ := 0
deriving DecidableEq

/-- A PyPSA storage unit with the attributes `build_model` sets. -/
structure StorageUnit where
  name : String
  bus : String
  p_nom : ℚ := 0
  p_nom_extendable : Bool := false
  max_hours : ℚ := 1
  efficiency_store : ℚ := 1
  efficiency_dispatch : ℚ := 1
  cyclic_state_of_charge : Bool := false
  marginal_cost : ℚ := 0
  capital_cost : ℚ := 0
deriving DecidableEq

/-- The PyPSA network `self.n` after `build_model`: the component lists plus
the snapshot horizon set in `IESModel.__init__`. -/
structure Network where
  hours : ℕ
  buses : List Bus
  generators : List Generator
  loads : List Load
  links : List Link
  storage_units : List StorageUnit
deriving DecidableEq

/-- The condition `components is None or name in components` guarding the two
generators in `build_model`. -/
def selGen (components : Option (List String)) (g : String) : Bool :=
  match components with
  | none => true
  | some cs => cs.contains g

/-- The default device list used when `components` is `None`
(`build_model`, line 44). -/
def allDevices : List String :=
  ["electric_boiler", "ashp", "gshp_shallow", "gshp_deep", "electrolyzer",
   "fuel_cell", "battery", "h2_storage"]

/-- `all_devices = components if components is not None else [...]`. -/
def devicesOf : Option (List String) → List String
  | none => allDevices
  | some cs => cs

/-- The keys of the heat-pump type table `hp_types` in `build_model`
(insertion order of the Python dict). -/
def hp_types : List String := ["ashp", "gshp_shallow", "gshp_deep"]

/-- The four buses `build_model` always adds. -/
def defaultBuses : List Bus :=
  [⟨"electricity", "AC"⟩, ⟨"heat", "heat"⟩, ⟨"cooling", "cooling"⟩,
   ⟨"hydrogen", "H2"⟩]

/-- The `grid` generator (`build_model`, lines 29-33): extendable capacity,
marginal cost `data.get('grid_cost')` (possibly `None`). -/
def gridGen (data : Data) : Generator :=
  { name := "grid", bus := "electricity", p_nom_extendable := true,
    marginal_cost := getOpt data ("grid_cost") }

/-- The `pv` generator (`build_model`, lines 35-40); `pu` is the value of
`data['pv_pu']`. -/
def pvGen (data : Data) (pu : Val) : Generator :=
  { name := "pv", bus := "electricity", p_nom := getNum data ("pv_p_nom") 100,
    p_max_pu := some pu,
    marginal_cost := some (getDef data ("pv_cost") (Val.num 0.01)) }

/-- The three always-added loads (`build_model`, lines 49-51); the arguments
are the values of `data['elec_load']`, `data['heat_load']`,
`data['cool_load']`. -/
def baseLoads (el hl cl : Val) : List Load :=
  [⟨"elec_load", "electricity", el⟩, ⟨"heat_load", "heat", hl⟩,
   ⟨"cool_load", "cooling", cl⟩]

/-- The conditional hydrogen load (`build_model`, lines 52-53). -/
def h2Loads (data : Data) : List Load :=
  match data.lookup ("h2_load") with
  | some v => [⟨"h2_load", "hydrogen", v⟩]
  | none => []

/-- The `electric_boiler` link (`build_model`, lines 55-60). -/
def boilerLink (data : Data) : Link :=
  { name := "electric_boiler", bus0 := "electricity", bus1 := "heat",
    p_nom := getNum data ("boiler_p_nom") 20,
    efficiency := getNum data ("boiler_eff") 0.98 }

/-- The two links added for one heat-pump type (`build_model`, lines 69-80):
both read the same capacity parameter. -/
def hpLinks (data : Data) (hp : String) : List Link :=
  [{ name := hp ++ "_heating", bus0 := "electricity", bus1 := "heat",
     p_nom := getNum data (hp ++ "_p_nom") 40,
     efficiency := getNum data (hp ++ "_eff") 3.0 },
   { name := hp ++ "_cooling", bus0 := "electricity", bus1 := "cooling",
     p_nom := getNum data (hp ++ "_p_nom") 40,
     efficiency := getNum data (hp ++ "_eer") 3.5 }]

/-- The `electrolyzer` link (`build_model`, lines 82-87). -/
def elyLink (data : Data) : Link :=
  { name := "electrolyzer", bus0 := "electricity", bus1 := "hydrogen",
    p_nom := getNum data ("ely_p_nom") 50,
    efficiency := getNum data ("ely_eff") 0.75 }

/-- The `fuel_cell` link (`build_model`, lines 89-96): one hydrogen input,
electricity and heat outputs with `efficiency` and `efficiency2`. -/
def fcLink (data : Data) : Link :=
  { name := "fuel_cell", bus0 := "hydrogen", bus1 := "electricity",
    bus2 := some "heat", p_nom := getNum data ("fc_p_nom") 50,
    efficiency := getNum data ("fc_eff_elec") 0.45,
    efficiency2 := some (getNum data ("fc_eff_heat") 0.40) }

/-- All links of `build_model` for a resolved device list (lines 55-96). -/
def mkLinks (data : Data) (devs : List String) : List Link :=
  (if devs.contains ("electric_boiler") then [boilerLink data] else [])
    ++ hp_types.flatMap (fun hp => if devs.contains hp then hpLinks data hp else [])
    ++ (if devs.contains ("electrolyzer") then [elyLink data] else [])
    ++ (if devs.contains ("fuel_cell") then [fcLink data] else [])

/-- The `battery` storage unit (`build_model`, lines 98-106). -/
def batteryUnit (data : Data) : StorageUnit :=
  { name := "battery", bus := "electricity",
    p_nom := getNum data ("bat_p_nom") 30,
    max_hours := getNum data ("bat_hours") 4,
    efficiency_store := getNum data ("bat_eff_store") 0.9,
    efficiency_dispatch := getNum data ("bat_eff_dispatch") 0.9,
    cyclic_state_of_charge := true, marginal_cost := 0.01 }

/-- The `h2_storage` storage unit (`build_model`, lines 108-116). -/
def h2sUnit (data : Data) : StorageUnit :=
  { name := "h2_storage", bus := "hydrogen",
    p_nom := getNum data ("h2s_p_nom") 100,
    max_hours := getNum data ("h2s_hours") 20,
    efficiency_store := 0.98, efficiency_dispatch := 0.98,
    cyclic_state_of_charge := true, marginal_cost := 0.005 }

/-- The storage units of `build_model` for a resolved device list. -/
def mkStorage (data : Data) (devs : List String) : List StorageUnit :=
  (if devs.contains ("battery") then [batteryUnit data] else [])
    ++ (if devs.contains ("h2_storage") then [h2sUnit data] else [])

/-- Second stage of `build_model` (lines 48-117): the load additions — each
one a bracket access `data['...']` (possible `KeyError`) followed by the
series alignment inside `n.add` (possible `ValueError`), in source order
`elec_load`, `heat_load`, `cool_load`, then the conditional `h2_load` add —
followed by the purely `get`-based link and storage additions.  Alignment
returns the value unchanged on success, so the stored attributes are the
raw dictionary values. -/
def buildRest (hours : ℕ) (data : Data) (components : Option (List String))
    (gens : List Generator) : Except PyErr Network := do
  let all_devices := devicesOf components
  let el ← reqAligned hours data ("elec_load")
  let hl ← reqAligned hours data ("heat_load")
  let cl ← reqAligned hours data ("cool_load")
  let _ ← alignOpt hours (getOpt data ("h2_load"))
  pure { hours := hours, buses := defaultBuses, generators := gens,
         loads := baseLoads el hl cl ++ h2Loads data,
         links := mkLinks data all_devices,
         storage_units := mkStorage data all_devices }

/-- First stage of `build_model` (lines 28-40): the two generator adds.
The `grid` add aligns its (possibly absent) `grid_cost` marginal-cost value;
the `pv` add evaluates the bracket access `data['pv_pu']` and aligns both
the availability series and the `pv_cost` value. -/
def buildGens (hours : ℕ) (data : Data)
    (components : Option (List String)) : Except PyErr (List Generator) := do
  let gens1 : List Generator :=
    if selGen components ("grid") then [gridGen data] else []
  let _ ←
    if selGen components ("grid") then
      alignOpt hours (getOpt data ("grid_cost"))
    else
      pure none
  if selGen components ("pv") then do
    let pu ← reqAligned hours data ("pv_pu")
    let _ ← alignSeries hours (getDef data ("pv_cost") (Val.num 0.01))
    pure (gens1 ++ [pvGen data pu])
  else
    pure gens1

/-- `IESModel.build_model(components)`: returns the network `self.n`, or the
Python exception of the first failing step — a `KeyError` from a bracket
access, or a pandas `ValueError` from aligning a wrong-length series to the
snapshots inside `n.add`.  The `pv_pu` access and the generator alignments
happen before the load additions, exactly as in the source. -/
def build_model (hours : ℕ) (data : Data)
    (components : Option (List String)) : Except PyErr Network := do
  let gens ← buildGens hours data components
  buildRest hours data components gens

/-- The generators of a successful `build_model`, written without the
fallible reads (used only to state the characterisation lemma below). -/
def mkGens (data : Data) (components : Option (List String)) : List Generator :=
  (if selGen components ("grid") then [gridGen data] else [])
    ++ (if selGen components ("pv") then
          [pvGen data ((data.lookup ("pv_pu")).getD (Val.series []))] else [])

/-- The network a successful `build_model` returns, as a total function of
the inputs (characterisation target; `build_model` itself is the faithful
fallible translation). -/
def mkNet (hours : ℕ) (data : Data)
    (components : Option (List String)) : Network :=
  { hours := hours, buses := defaultBuses,
    generators := mkGens data components,
    loads := baseLoads ((data.lookup ("elec_load")).getD (Val.series []))
        ((data.lookup ("heat_load")).getD (Val.series []))
        ((data.lookup ("cool_load")).getD (Val.series []))
      ++ h2Loads data,
    links := mkLinks data (devicesOf components),
    storage_units := mkStorage data (devicesOf components) }

/-- The dictionary keys `build_model` reads with a fallible bracket access,
per selection: `pv_pu` (when `pv` is selected) and the three load series. -/
def reqKeys (components : Option (List String)) : List String :=
  (if selGen components ("pv") then ["pv_pu"] else [])
    ++ ["elec_load", "heat_load", "cool_load"]

/-- The values the load additions pass to `n.add` as per-snapshot
attributes (those supplied at all). -/
def loadArgs (data : Data) : List Val :=
  (data.lookup ("elec_load")).toList ++ (data.lookup ("heat_load")).toList
    ++ (data.lookup ("cool_load")).toList ++ (data.lookup ("h2_load")).toList

/-- The values the generator additions pass to `n.add` as per-snapshot
attributes, per selection. -/
def genArgs (data : Data) (components : Option (List String)) : List Val :=
  (if selGen components ("grid") then (getOpt data ("grid_cost")).toList
   else [])
    ++ (if selGen components ("pv") then
          (data.lookup ("pv_pu")).toList
            ++ [getDef data ("pv_cost") (Val.num 0.01)]
        else [])

/-- Every value `build_model` passes to `n.add` as a per-snapshot
attribute: each must align with the snapshot index for the build to
succeed. -/
def seriesArgs (data : Data) (components : Option (List String)) : List Val :=
  genArgs data components ++ loadArgs data

/-- A decision-variable atom of the extra constraints: a link's input power
`Link-p` at a snapshot, or a heat-pump binary mode variable at a snapshot. -/
inductive Atom where
  | linkP : String → ℕ → Atom
  | mode : String → ℕ → Atom
deriving DecidableEq

/-- One linear inequality row added by `extra_functionality`:
`(sum of coeff * atom) + const <= rhs`, tagged with the PyPSA constraint
group name and the snapshot it belongs to. -/
structure Constraint where
  name : String
  t : ℕ
  terms : List (ℚ × Atom)
  const : ℚ
  rhs : ℚ
deriving DecidableEq

/-- Satisfaction of one constraint row by an assignment of the atoms. -/
def sat (asgn : Atom → ℚ) (c : Constraint) : Prop :=
  (c.terms.map (fun ta => ta.1 * asgn ta.2)).sum + c.const ≤ c.rhs

/-- What `extra_functionality` adds to the model: binary variable groups
(one per active heat-pump family, indexed by the snapshots) and the
constraint rows. -/
structure HPProblem where
  binaries : List String
  constraints : List Constraint
deriving DecidableEq

/-- Lookup of a link by name, following `n.links.index` membership and
`n.links.at[name, ...]`. -/
def findLink (net : Network) (s : String) : Option Link :=
  net.links.find? (fun l => l.name == s)

/-- `name in n.links.index`. -/
def hasLink (net : Network) (s : String) : Bool := (findLink net s).isSome

/-- `n.links.at[s, "p_nom"]` (0 when the link is absent; only read by the
formulator after a successful membership test). -/
def linkPnom (net : Network) (s : String) : ℚ :=
  ((findLink net s).map Link.p_nom).getD 0

/-- The fixed list of heat-pump family identifiers the formulator loops over
(`extra_functionality`, line 130). -/
def hpList : List String := ["ashp", "gshp_shallow", "gshp_deep"]

/-- Both links of the family are present in the link index
(`extra_functionality`, line 134). -/
def hpActive (net : Network) (hp : String) : Bool :=
  hasLink net (hp ++ "_heating") && hasLink net (hp ++ "_cooling")

/-- The capacity-sharing row `p0_heat + p0_cool <= p_nom` at snapshot `t`
(`extra_functionality`, line 140). -/
def capCon (hp : String) (pnom : ℚ) (t : ℕ) : Constraint :=
  { name := hp ++ "_capacity_sharing", t := t,
    terms := [(1, Atom.linkP (hp ++ "_heating") t),
              (1, Atom.linkP (hp ++ "_cooling") t)],
    const := 0, rhs := pnom }

/-- The heating-exclusion row `p0_heat - z * p_nom <= 0` at snapshot `t`
(`extra_functionality`, line 145). -/
def heatCon (hp : String) (pnom : ℚ) (t : ℕ) : Constraint :=
  { name := hp ++ "_heating_exclusion", t := t,
    terms := [(1, Atom.linkP (hp ++ "_heating") t), (-pnom, Atom.mode hp t)],
    const := 0, rhs := 0 }

/-- The cooling-exclusion row `p0_cool - (1 - z) * p_nom <= 0` at snapshot
`t` (`extra_functionality`, line 146), expanded to
`p0_cool + p_nom * z - p_nom <= 0`. -/
def coolCon (hp : String) (pnom : ℚ) (t : ℕ) : Constraint :=
  { name := hp ++ "_cooling_exclusion", t := t,
    terms := [(1, Atom.linkP (hp ++ "_cooling") t), (pnom, Atom.mode hp t)],
    const := -pnom, rhs := 0 }

/-- The constraint rows one loop iteration of `extra_functionality` adds for
family `hp` (lines 134-146): nothing when either link is missing, else the
three vectorised constraint groups, each one row per snapshot, all using the
heating link's `p_nom`. -/
def familyCons (net : Network) (hp : String) : List Constraint :=
  if hpActive net hp then
    ((List.range net.hours).map (capCon hp (linkPnom net (hp ++ "_heating"))))
      ++ ((List.range net.hours).map
            (heatCon hp (linkPnom net (hp ++ "_heating"))))
      ++ ((List.range net.hours).map
            (coolCon hp (linkPnom net (hp ++ "_heating"))))
  else []

/-- The binary variable group one loop iteration adds (line 143). -/
def familyBins (net : Network) (hp : String) : List String :=
  if hpActive net hp then [hp ++ "_mode"] else []

/-- The closure `extra_functionality(n, snapshots)` of `IESModel.solve`
(lines 122-146): returns early with nothing when the model has no `Link-p`
variables (no links), else loops over the three family identifiers. -/
def extra_functionality (net : Network) : HPProblem :=
  if net.links.isEmpty then ⟨[], []⟩
  else ⟨hpList.flatMap (familyBins net), hpList.flatMap (familyCons net)⟩

/-- The PyPSA constraint group names belonging to family `hp`. -/
def familyNames (hp : String) : List String :=
  [hp ++ "_capacity_sharing", hp ++ "_heating_exclusion",
   hp ++ "_cooling_exclusion"]

/-- Selector for the rows of family `hp` at snapshot `t`. -/
def famFilter (hp : String) (t : ℕ) (c : Constraint) : Bool :=
  decide (c.t = t) && (familyNames hp).contains c.name

/-- The named solver backends `IESModel.solve` tries, in source order
(line 150). -/
def backendOrder : List String := ["gurobi", "copt", "glpk"]

/-- The `for solver in [...]` loop of `IESModel.solve` (lines 150-162) over a
backend behaviour: first component is the `success` flag after the loop,
second the solvers actually attempted.  A raised exception
(`Except.error`) or a status other than `'ok'` moves on to the next
solver; status `'ok'` breaks out of the loop. -/
def trySolvers (beh : Option String → Except String String) :
    List String → Bool × List String
  | [] => (false, [])
  | s :: rest =>
    match beh (some s) with
    | .ok st =>
      if st = "ok" then (true, [s])
      else
        let r := trySolvers beh rest
        (r.1, s :: r.2)
    | .error _ =>
      let r := trySolvers beh rest
      (r.1, s :: r.2)

/-- `IESModel.solve` backend orchestration (lines 148-171): the priority
loop, then — only if it did not succeed — one unconfigured default attempt
whose mere completion without an exception sets `success = True` (the
returned status of the default attempt is not inspected).  Returns the
`success` flag and the list of attempted backends (`none` is the default
attempt). -/
def solveResult (beh : Option String → Except String String) :
    Bool × List (Option String) :=
  let r := trySolvers beh backendOrder
  if r.1 then (true, r.2.map some)
  else
    match beh none with
    | .ok _ => (true, r.2.map some ++ [none])
    | .error _ => (false, r.2.map some ++ [none])

/-- The value `IESModel.solve` returns: the boolean `success` flag. -/
def solve (beh : Option String → Except String String) : Bool :=
  (solveResult beh).1

theorem exbind_ok {ε α β : Type} (a : α) (f : α → Except ε β) :
    ((Except.ok a : Except ε α) >>= f) = f a := rfl

theorem exbind_error {ε α β : Type} (e : ε) (f : α → Except ε β) :
    ((Except.error e : Except ε α) >>= f) = Except.error e := rfl

theorem exbind_pure {ε α β : Type} (a : α) (f : α → Except ε β) :
    ((Except.pure a : Except ε α) >>= f) = f a := rfl

/-- Case analysis of one series alignment: success returns the value
unchanged, failure reports the mismatched lengths. -/
lemma alignSeries_cases (hours : ℕ) (v : Val) :
    (alignSeries hours v = Except.ok v ∧ seriesOk hours v = true)
    ∨ (∃ xs, v = Val.series xs ∧ xs.length ≠ hours
        ∧ alignSeries hours v
            = Except.error (PyErr.valueError xs.length hours)
        ∧ seriesOk hours v = false) := by
  cases v with
  | num x => exact Or.inl ⟨rfl, rfl⟩
  | series xs =>
    by_cases h : xs.length = hours
    · exact Or.inl ⟨by simp [alignSeries, h], by simp [seriesOk, h]⟩
    · exact Or.inr ⟨xs, rfl, h, by simp [alignSeries, h],
        by simp [seriesOk, h]⟩

/-- Case analysis of the alignment of an optional attribute value. -/
lemma alignOpt_cases (hours : ℕ) (o : Option Val) :
    (alignOpt hours o = Except.ok o
      ∧ o.toList.all (seriesOk hours) = true)
    ∨ (∃ xs, o = some (Val.series xs) ∧ xs.length ≠ hours
        ∧ alignOpt hours o
            = Except.error (PyErr.valueError xs.length hours)
        ∧ o.toList.all (seriesOk hours) = false) := by
  cases o with
  | none => exact Or.inl ⟨rfl, rfl⟩
  | some v =>
    rcases alignSeries_cases hours v with ⟨ha, hs⟩ | ⟨xs, rfl, hne, ha, hs⟩
    · refine Or.inl ⟨?_, by simp [hs]⟩
      show Except.map some (alignSeries hours v) = Except.ok (some v)
      rw [ha]
      rfl
    · refine Or.inr ⟨xs, rfl, hne, ?_, by simp [hs]⟩
      show Except.map some (alignSeries hours (Val.series xs))
          = Except.error (PyErr.valueError xs.length hours)
      rw [ha]
      rfl

/-- Case analysis of a bracket access followed by its alignment inside
`n.add`. -/
lemma reqAligned_cases (hours : ℕ) (d : Data) (k : String) :
    (∃ v, d.lookup k = some v ∧ reqAligned hours d k = Except.ok v
      ∧ seriesOk hours v = true)
    ∨ (d.lookup k = none
        ∧ reqAligned hours d k = Except.error (PyErr.keyError k))
    ∨ (∃ xs, d.lookup k = some (Val.series xs) ∧ xs.length ≠ hours
        ∧ reqAligned hours d k
            = Except.error (PyErr.valueError xs.length hours)) := by
  cases hl : d.lookup k with
  | none =>
    exact Or.inr (Or.inl ⟨rfl,
      by simp [reqAligned, req, hl, exbind_error]⟩)
  | some v =>
    rcases alignSeries_cases hours v with ⟨ha, hs⟩ | ⟨xs, rfl, hne, ha, hs⟩
    · exact Or.inl ⟨v, rfl,
        by simp [reqAligned, req, hl, exbind_ok, ha], hs⟩
    · exact Or.inr (Or.inr ⟨xs, rfl, hne,
        by simp [reqAligned, req, hl, exbind_ok, ha]⟩)

/-- Case analysis of the second build stage: all three load series present
and aligned (plus an aligned `h2_load` when supplied), or the first failing
step\'s exception. -/
lemma buildRest_cases (hours : ℕ) (data : Data) (comps : Option (List String))
    (gens : List Generator) :
    (buildRest hours data comps gens = Except.ok
        { hours := hours, buses := defaultBuses, generators := gens,
          loads := baseLoads ((data.lookup ("elec_load")).getD (Val.series []))
              ((data.lookup ("heat_load")).getD (Val.series []))
              ((data.lookup ("cool_load")).getD (Val.series []))
            ++ h2Loads data,
          links := mkLinks data (devicesOf comps),
          storage_units := mkStorage data (devicesOf comps) }
      ∧ (["elec_load", "heat_load", "cool_load"].all
          (fun k => hasKey data k)) = true
      ∧ (loadArgs data).all (seriesOk hours) = true)
    ∨ (∃ k, buildRest hours data comps gens
          = Except.error (PyErr.keyError k)
        ∧ hasKey data k = false
        ∧ k ∈ (["elec_load", "heat_load", "cool_load"] : List String))
    ∨ (∃ xs, buildRest hours data comps gens
          = Except.error (PyErr.valueError xs.length hours)
        ∧ Val.series xs ∈ loadArgs data ∧ xs.length ≠ hours) := by
  rcases reqAligned_cases hours data ("elec_load") with
    ⟨el, hel, helr, helok⟩ | ⟨hel, helr⟩ | ⟨xs, hel, hxs, helr⟩
  · rcases reqAligned_cases hours data ("heat_load") with
      ⟨hlv, hhl, hhlr, hhlok⟩ | ⟨hhl, hhlr⟩ | ⟨xs, hhl, hxs, hhlr⟩
    · rcases reqAligned_cases hours data ("cool_load") with
        ⟨clv, hcl, hclr, hclok⟩ | ⟨hcl, hclr⟩ | ⟨xs, hcl, hxs, hclr⟩
      · rcases alignOpt_cases hours (getOpt data ("h2_load")) with
          ⟨hh2, hh2ok⟩ | ⟨xs, hh2, hxs, hh2r, _⟩
        · refine Or.inl ⟨?_, ?_, ?_⟩
          · simp [buildRest, helr, hhlr, hclr, hh2, exbind_ok, pure,
              Except.pure, hel, hhl, hcl]
          · simp [hasKey, hel, hhl, hcl]
          · simp [loadArgs, hel, hhl, hcl, helok, hhlok, hclok,
              List.all_append, getOpt] at hh2ok ⊢
            exact hh2ok
        · refine Or.inr (Or.inr ⟨xs, ?_, ?_, hxs⟩)
          · simp [buildRest, helr, hhlr, hclr, hh2r, exbind_ok,
              exbind_error]
          · simp [loadArgs, getOpt] at hh2 ⊢
            simp [hh2]
      · refine Or.inr (Or.inl ⟨"cool_load", ?_, by simp [hasKey, hcl],
          by simp⟩)
        simp [buildRest, helr, hhlr, hclr, exbind_ok, exbind_error]
      · refine Or.inr (Or.inr ⟨xs, ?_, ?_, hxs⟩)
        · simp [buildRest, helr, hhlr, hclr, exbind_ok, exbind_error]
        · simp [loadArgs, hcl]
    · refine Or.inr (Or.inl ⟨"heat_load", ?_, by simp [hasKey, hhl],
        by simp⟩)
      simp [buildRest, helr, hhlr, exbind_ok, exbind_error]
    · refine Or.inr (Or.inr ⟨xs, ?_, ?_, hxs⟩)
      · simp [buildRest, helr, hhlr, exbind_ok, exbind_error]
      · simp [loadArgs, hhl]
  · refine Or.inr (Or.inl ⟨"elec_load", ?_, by simp [hasKey, hel],
      by simp⟩)
    simp [buildRest, helr, exbind_error]
  · refine Or.inr (Or.inr ⟨xs, ?_, ?_, hxs⟩)
    · simp [buildRest, helr, exbind_error]
    · simp [loadArgs, hel]

/-- Case analysis of the first build stage: the generators of `mkGens`, or
the first failing generator add. -/
lemma buildGens_cases (hours : ℕ) (data : Data)
    (comps : Option (List String)) :
    (buildGens hours data comps = Except.ok (mkGens data comps)
      ∧ (if selGen comps ("pv") then ["pv_pu"] else ([] : List String)).all
          (fun k => hasKey data k) = true
      ∧ (genArgs data comps).all (seriesOk hours) = true)
    ∨ (buildGens hours data comps = Except.error (PyErr.keyError "pv_pu")
        ∧ hasKey data ("pv_pu") = false ∧ selGen comps ("pv") = true)
    ∨ (∃ xs, buildGens hours data comps
          = Except.error (PyErr.valueError xs.length hours)
        ∧ Val.series xs ∈ genArgs data comps ∧ xs.length ≠ hours) := by
  by_cases hg : selGen comps ("grid") = true
  · rcases alignOpt_cases hours (getOpt data ("grid_cost")) with
      ⟨hgc, hgcok⟩ | ⟨xs, hgc, hne, hgcr, _⟩
    · by_cases hpv : selGen comps ("pv") = true
      · rcases reqAligned_cases hours data ("pv_pu") with
          ⟨pu, hpu, hpur, hpuok⟩ | ⟨hpu, hpur⟩ | ⟨xs, hpu, hnep, hpur⟩
        · rcases alignSeries_cases hours
              (getDef data ("pv_cost") (Val.num 0.01)) with
            ⟨hpc, hpcok⟩ | ⟨xs, hpc, hnep, hpcr, _⟩
          · refine Or.inl ⟨?_, by simp [hpv, hasKey, hpu], ?_⟩
            · simp [buildGens, hg, hgc, hpv, hpur, hpc, exbind_ok, pure,
                Except.pure, mkGens, hpu]
            · simp [genArgs, hg, hpv, hpu, hpuok, hpcok, hgcok,
                List.all_append]
          · refine Or.inr (Or.inr ⟨xs, ?_, ?_, hnep⟩)
            · simp [buildGens, hg, hgc, hpv, hpur, hpcr, exbind_ok,
                exbind_error]
            · simp [genArgs, hg, hpv, hpc]
        · refine Or.inr (Or.inl ⟨?_, by simp [hasKey, hpu], hpv⟩)
          simp [buildGens, hg, hgc, hpv, hpur, exbind_ok, exbind_error]
        · refine Or.inr (Or.inr ⟨xs, ?_, ?_, hnep⟩)
          · simp [buildGens, hg, hgc, hpv, hpur, exbind_ok, exbind_error]
          · simp [genArgs, hg, hpv, hpu]
      · refine Or.inl ⟨?_, by simp [hpv], ?_⟩
        · simp [buildGens, hg, hgc, hpv, exbind_ok, pure, Except.pure,
            mkGens]
        · simp [genArgs, hg, hpv, hgcok, List.all_append]
    · refine Or.inr (Or.inr ⟨xs, ?_, ?_, hne⟩)
      · simp [buildGens, hg, hgcr, exbind_error]
      · have hgc2 : List.lookup ("grid_cost") data
            = some (Val.series xs) := hgc
        simp [genArgs, hg, hgc2]
        exact Or.inl hgc
  · by_cases hpv : selGen comps ("pv") = true
    · rcases reqAligned_cases hours data ("pv_pu") with
        ⟨pu, hpu, hpur, hpuok⟩ | ⟨hpu, hpur⟩ | ⟨xs, hpu, hnep, hpur⟩
      · rcases alignSeries_cases hours
            (getDef data ("pv_cost") (Val.num 0.01)) with
          ⟨hpc, hpcok⟩ | ⟨xs, hpc, hnep, hpcr, _⟩
        · refine Or.inl ⟨?_, by simp [hpv, hasKey, hpu], ?_⟩
          · simp [buildGens, hg, hpv, hpur, hpc, exbind_ok, exbind_pure,
              pure, Except.pure, mkGens, hpu]
          · simp [genArgs, hg, hpv, hpu, hpuok, hpcok, List.all_append]
        · refine Or.inr (Or.inr ⟨xs, ?_, ?_, hnep⟩)
          · simp [buildGens, hg, hpv, hpur, hpcr, exbind_ok, exbind_pure,
              exbind_error]
          · simp [genArgs, hg, hpv, hpc]
      · refine Or.inr (Or.inl ⟨?_, by simp [hasKey, hpu], hpv⟩)
        simp [buildGens, hg, hpv, hpur, exbind_ok, exbind_pure,
          exbind_error]
      · refine Or.inr (Or.inr ⟨xs, ?_, ?_, hnep⟩)
        · simp [buildGens, hg, hpv, hpur, exbind_ok, exbind_pure,
            exbind_error]
        · simp [genArgs, hg, hpv, hpu]
    · refine Or.inl ⟨?_, by simp [hpv], ?_⟩
      · simp [buildGens, hg, hpv, exbind_ok, exbind_pure, pure,
          Except.pure, mkGens]
      · simp [genArgs, hg, hpv]

/-- Case analysis of `build_model`: the `mkNet` success, or the first
Python exception — a `KeyError` on a missing bracket-accessed key or a
`ValueError` on a wrong-length per-snapshot series. -/
lemma build_model_cases (hours : ℕ) (data : Data)
    (comps : Option (List String)) :
    (build_model hours data comps = Except.ok (mkNet hours data comps)
      ∧ (reqKeys comps).all (fun k => hasKey data k) = true
      ∧ (seriesArgs data comps).all (seriesOk hours) = true)
    ∨ (∃ k, build_model hours data comps = Except.error (PyErr.keyError k)
        ∧ hasKey data k = false ∧ k ∈ reqKeys comps)
    ∨ (∃ xs, build_model hours data comps
          = Except.error (PyErr.valueError xs.length hours)
        ∧ Val.series xs ∈ seriesArgs data comps ∧ xs.length ≠ hours) := by
  rcases buildGens_cases hours data comps with
    ⟨hG, hGk, hGa⟩ | ⟨hG, hk, hpv⟩ | ⟨xs, hG, hmem, hne⟩
  · rcases buildRest_cases hours data comps (mkGens data comps) with
      ⟨hR, hRk, hRa⟩ | ⟨k, hR, hk, hmem⟩ | ⟨xs, hR, hmem, hne⟩
    · refine Or.inl ⟨?_, ?_, ?_⟩
      · rw [show build_model hours data comps
            = buildRest hours data comps (mkGens data comps) from by
              simp [build_model, hG, exbind_ok], hR]
        rfl
      · rw [reqKeys, List.all_append, hGk, hRk]
        rfl
      · rw [seriesArgs, List.all_append, hGa, hRa]
        rfl
    · refine Or.inr (Or.inl ⟨k, ?_, hk, ?_⟩)
      · rw [show build_model hours data comps
            = buildRest hours data comps (mkGens data comps) from by
              simp [build_model, hG, exbind_ok], hR]
      · rw [reqKeys]
        exact List.mem_append_right _ hmem
    · refine Or.inr (Or.inr ⟨xs, ?_, ?_, hne⟩)
      · rw [show build_model hours data comps
            = buildRest hours data comps (mkGens data comps) from by
              simp [build_model, hG, exbind_ok], hR]
      · rw [seriesArgs]
        exact List.mem_append_right _ hmem
  · refine Or.inr (Or.inl ⟨"pv_pu", ?_, hk, ?_⟩)
    · simp [build_model, hG, exbind_error]
    · rw [reqKeys]
      exact List.mem_append_left _ (by simp [hpv])
  · refine Or.inr (Or.inr ⟨xs, ?_, ?_, hne⟩)
    · simp [build_model, hG, exbind_error]
    · rw [seriesArgs]
      exact List.mem_append_left _ hmem

/-- A successful `build_model` returns exactly `mkNet`. -/
lemma build_ok_mkNet {hours : ℕ} {data : Data} {comps : Option (List String)}
    {net : Network} (h : build_model hours data comps = Except.ok net) :
    net = mkNet hours data comps := by
  rcases build_model_cases hours data comps with
    ⟨hok, _, _⟩ | ⟨k, herr, _, _⟩ | ⟨xs, herr, _, _⟩
  · rw [h] at hok
    exact Except.ok.inj hok
  · rw [h] at herr
    cases herr
  · rw [h] at herr
    cases herr

/-- `build_model` succeeds exactly when every bracket-accessed key is
present and every supplied per-snapshot series matches the horizon. -/
lemma build_isOk (hours : ℕ) (data : Data) (comps : Option (List String)) :
    (build_model hours data comps).isOk
      = ((reqKeys comps).all (fun k => hasKey data k)
          && (seriesArgs data comps).all (seriesOk hours)) := by
  rcases build_model_cases hours data comps with
    ⟨hok, hk, ha⟩ | ⟨k, herr, hk, hmem⟩ | ⟨xs, herr, hmem, hne⟩
  · rw [hok, hk, ha]
    rfl
  · rw [herr]
    have hkeys : (reqKeys comps).all (fun k => hasKey data k) ≠ true := by
      intro hall
      rw [List.all_eq_true] at hall
      have := hall k hmem
      rw [hk] at this
      cases this
    simp only [Bool.not_eq_true] at hkeys
    rw [hkeys]
    rfl
  · rw [herr]
    have hargs : (seriesArgs data comps).all (seriesOk hours) ≠ true := by
      intro hall
      rw [List.all_eq_true] at hall
      have := hall _ hmem
      simp [seriesOk] at this
      exact hne this
    simp only [Bool.not_eq_true] at hargs
    rw [hargs, Bool.and_false]
    rfl

/-- A `KeyError` from `build_model` names a missing bracket-accessed key. -/
lemma build_keyError {hours : ℕ} {data : Data} {comps : Option (List String)}
    {k : String}
    (h : build_model hours data comps = Except.error (PyErr.keyError k)) :
    hasKey data k = false ∧ k ∈ reqKeys comps := by
  rcases build_model_cases hours data comps with
    ⟨hok, _, _⟩ | ⟨k2, herr, hk, hmem⟩ | ⟨xs, herr, _, _⟩
  · rw [h] at hok
    cases hok
  · rw [h] at herr
    injection Except.error.inj herr with hkk
    subst hkk
    exact ⟨hk, hmem⟩
  · rw [h] at herr
    simp at herr

/-- A `ValueError` from `build_model` reports a supplied per-snapshot
series whose length differs from the horizon. -/
lemma build_valueError {hours : ℕ} {data : Data}
    {comps : Option (List String)} {g e : ℕ}
    (h : build_model hours data comps
      = Except.error (PyErr.valueError g e)) :
    e = hours ∧ ∃ xs, Val.series xs ∈ seriesArgs data comps
      ∧ xs.length = g ∧ g ≠ hours := by
  rcases build_model_cases hours data comps with
    ⟨hok, _, _⟩ | ⟨k2, herr, _, _⟩ | ⟨xs, herr, hmem, hne⟩
  · rw [h] at hok
    cases hok
  · rw [h] at herr
    simp at herr
  · rw [h] at herr
    injection Except.error.inj herr with h1 h2
    subst h2
    exact ⟨rfl, xs, hmem, h1.symm, h1 ▸ hne⟩

/-- Membership in a conditionally-included component list. -/
lemma mem_if_list {α : Type} (p : Prop) [Decidable p] (x : α) (l : List α) :
    (x ∈ if p then l else []) ↔ p ∧ x ∈ l := by
  split <;> simp_all

/-- Filtering a per-snapshot row group of another family gives nothing. -/
lemma filter_fam_other (hp : String) (t n : ℕ) (g : ℕ → Constraint)
    (hgn : ∀ s, (familyNames hp).contains (g s).name = false) :
    ((List.range n).map g).filter (famFilter hp t) = [] := by
  rw [List.filter_eq_nil_iff]
  intro c hc
  rw [List.mem_map] at hc
  obtain ⟨s, _, rfl⟩ := hc
  simp only [famFilter, Bool.and_eq_true, not_and]
  intro _
  simpa using hgn s

/-- Filtering a per-snapshot row group of the own family at snapshot
`t < n` leaves exactly the row at `t`. -/
lemma filter_fam_range (hp : String) (t n : ℕ) (ht : t < n)
    (g : ℕ → Constraint) (hgt : ∀ s, (g s).t = s)
    (hgn : ∀ s, (familyNames hp).contains (g s).name = true) :
    ((List.range n).map g).filter (famFilter hp t) = [g t] := by
  induction n with
  | zero => omega
  | succ m ih =>
    rw [List.range_succ, List.map_append, List.filter_append]
    rcases Nat.lt_succ_iff_lt_or_eq.mp ht with h | h
    · rw [ih h]
      have hd : decide ((g m).t = t) = false := by
        rw [hgt m]
        simp
        omega
      simp [famFilter, hd]
    · subst h
      have h1 : ((List.range t).map g).filter (famFilter hp t) = [] := by
        rw [List.filter_eq_nil_iff]
        intro c hc
        rw [List.mem_map] at hc
        obtain ⟨s, hs, rfl⟩ := hc
        rw [List.mem_range] at hs
        have hd : decide ((g s).t = t) = false := by
          rw [hgt s]
          simp
          omega
        simp [famFilter, hd]
      have h2 : famFilter hp t (g t) = true := by
        simp only [famFilter, Bool.and_eq_true, decide_eq_true_eq]
        exact ⟨hgt t, hgn t⟩
      simp [h1, h2]

/-- Filtering the rows of a different family for family `hp` gives nothing. -/
lemma familyCons_filter_other (net : Network) (hp q : String) (t : ℕ)
    (h1 : (familyNames hp).contains (q ++ "_capacity_sharing") = false)
    (h2 : (familyNames hp).contains (q ++ "_heating_exclusion") = false)
    (h3 : (familyNames hp).contains (q ++ "_cooling_exclusion") = false) :
    (familyCons net q).filter (famFilter hp t) = [] := by
  unfold familyCons
  split
  · rw [List.filter_append, List.filter_append,
      filter_fam_other hp t net.hours _ (fun s => h1),
      filter_fam_other hp t net.hours _ (fun s => h2),
      filter_fam_other hp t net.hours _ (fun s => h3)]
    rfl
  · rfl

/-- Filtering the rows of family `hp` itself at a snapshot inside the
horizon leaves exactly its three rows there. -/
lemma familyCons_filter_self (net : Network) (hp : String)
    (ha : hpActive net hp = true) (t : ℕ) (ht : t < net.hours) :
    (familyCons net hp).filter (famFilter hp t)
      = [capCon hp (linkPnom net (hp ++ "_heating")) t,
         heatCon hp (linkPnom net (hp ++ "_heating")) t,
         coolCon hp (linkPnom net (hp ++ "_heating")) t] := by
  have hcap : ∀ s : ℕ, (familyNames hp).contains
      ((capCon hp (linkPnom net (hp ++ "_heating")) s).name) = true := by
    intro s
    simp [familyNames, capCon]
  have hheat : ∀ s : ℕ, (familyNames hp).contains
      ((heatCon hp (linkPnom net (hp ++ "_heating")) s).name) = true := by
    intro s
    simp [familyNames, heatCon]
  have hcool : ∀ s : ℕ, (familyNames hp).contains
      ((coolCon hp (linkPnom net (hp ++ "_heating")) s).name) = true := by
    intro s
    simp [familyNames, coolCon]
  unfold familyCons
  rw [if_pos ha, List.filter_append, List.filter_append,
    filter_fam_range hp t net.hours ht _ (fun s => rfl) hcap,
    filter_fam_range hp t net.hours ht _ (fun s => rfl) hheat,
    filter_fam_range hp t net.hours ht _ (fun s => rfl) hcool]
  rfl

/-- `hasLink` as an existence statement over the link list. -/
lemma hasLink_iff (net : Network) (s : String) :
    hasLink net s = true ↔ ∃ l ∈ net.links, l.name = s := by
  unfold hasLink findLink
  rw [List.find?_isSome]
  constructor
  · rintro ⟨l, hl, hb⟩
    exact ⟨l, hl, by simpa using hb⟩
  · rintro ⟨l, hl, hb⟩
    exact ⟨l, hl, by simpa using hb⟩

/-- An active family forces the link list to be nonempty (the `Link-p`
guard of `extra_functionality` passes). -/
lemma links_ne_nil_of_active (net : Network) (hp : String)
    (ha : hpActive net hp = true) : net.links.isEmpty = false := by
  unfold hpActive at ha
  rw [Bool.and_eq_true] at ha
  rcases (hasLink_iff net (hp ++ "_heating")).mp ha.1 with ⟨l, hl, _⟩
  cases h : net.links with
  | nil => rw [h] at hl; cases hl
  | cons a as => rfl

/-- The binary variable groups are nonempty exactly when some family is
active. -/
lemma binaries_ne_nil_iff (net : Network) :
    (extra_functionality net).binaries ≠ []
      ↔ ∃ hp ∈ hpList, hpActive net hp = true := by
  unfold extra_functionality
  split
  · rename_i hempty
    constructor
    · intro h
      exact absurd rfl h
    · rintro ⟨hp, _, ha⟩
      rw [links_ne_nil_of_active net hp ha] at hempty
      cases hempty
  · constructor
    · intro h
      rcases List.exists_mem_of_ne_nil _ h with ⟨b, hb⟩
      rw [List.mem_flatMap] at hb
      rcases hb with ⟨hp, hmem, hbin⟩
      refine ⟨hp, hmem, ?_⟩
      unfold familyBins at hbin
      by_cases ha : hpActive net hp = true
      · exact ha
      · rw [if_neg ha] at hbin
        cases hbin
    · rintro ⟨hp, hmem, ha⟩
      intro h
      rw [List.flatMap_eq_nil_iff] at h
      have := h hp hmem
      rw [familyBins, if_pos ha] at this
      cases this

/-- `hasLink` depends only on the list of link names. -/
lemma hasLink_names (net : Network) (s : String) :
    hasLink net s = (net.links.map Link.name).contains s := by
  unfold hasLink findLink
  induction net.links with
  | nil => rfl
  | cons x xs ih =>
    rw [List.find?_cons, List.map_cons, List.contains_cons]
    cases h : x.name == s with
    | true =>
      have hs : (s == x.name) = true := by
        rw [beq_iff_eq] at h ⊢
        exact h.symm
      rw [hs]
      rfl
    | false =>
      have hs : (s == x.name) = false := by
        rw [beq_eq_false_iff_ne] at h ⊢
        exact fun hc => h hc.symm
      rw [hs]
      simpa using ih

/-- The names of the links `build_model` creates, by device flag. -/
lemma mkLinks_names (data : Data) (devs : List String) :
    (mkLinks data devs).map Link.name
      = (if devs.contains ("electric_boiler") then ["electric_boiler"] else [])
        ++ (if devs.contains ("ashp") then
              ["ashp_heating", "ashp_cooling"] else [])
        ++ (if devs.contains ("gshp_shallow") then
              ["gshp_shallow_heating", "gshp_shallow_cooling"] else [])
        ++ (if devs.contains ("gshp_deep") then
              ["gshp_deep_heating", "gshp_deep_cooling"] else [])
        ++ (if devs.contains ("electrolyzer") then ["electrolyzer"] else [])
        ++ (if devs.contains ("fuel_cell") then ["fuel_cell"] else []) := by
  simp only [mkLinks, hp_types, List.flatMap_cons, List.flatMap_nil,
    List.map_append, apply_ite (List.map Link.name), List.map_nil,
    List.append_nil, List.append_assoc]
  simp [hpLinks, boilerLink, elyLink, fcLink]

/-- For a network built by `build_model`, a heat-pump family is active in
the formulator exactly when its device identifier was selected. -/
lemma hpActive_mkNet (hours : ℕ) (data : Data) (comps : Option (List String))
    (hp : String) (hmem : hp ∈ hp_types) :
    hpActive (mkNet hours data comps) hp
      = (devicesOf comps).contains hp := by
  rw [Bool.eq_iff_iff]
  unfold hpActive
  rw [Bool.and_eq_true, hasLink_names, hasLink_names]
  have hlinks : (mkNet hours data comps).links
      = mkLinks data (devicesOf comps) := rfl
  rw [hlinks, mkLinks_names]
  fin_cases hmem
  · simp [mem_if_list]
  · simp [mem_if_list]
  · simp [mem_if_list]

/-- Satisfaction of the capacity-sharing row is the inequality
`l_heat(t) + l_cool(t) <= p_nom`. -/
lemma sat_capCon (asgn : Atom → ℚ) (hp : String) (pnom : ℚ) (t : ℕ) :
    sat asgn (capCon hp pnom t)
      ↔ asgn (Atom.linkP (hp ++ "_heating") t)
          + asgn (Atom.linkP (hp ++ "_cooling") t) ≤ pnom := by
  simp [sat, capCon]

/-- Satisfaction of the heating-exclusion row is the inequality
`l_heat(t) <= z(t) * p_nom`. -/
lemma sat_heatCon (asgn : Atom → ℚ) (hp : String) (pnom : ℚ) (t : ℕ) :
    sat asgn (heatCon hp pnom t)
      ↔ asgn (Atom.linkP (hp ++ "_heating") t)
          ≤ asgn (Atom.mode hp t) * pnom := by
  simp only [sat, heatCon, List.map_cons, List.map_nil, List.sum_cons,
    List.sum_nil, one_mul, add_zero]
  constructor
  · intro h
    nlinarith [h]
  · intro h
    nlinarith [h]

/-- Satisfaction of the cooling-exclusion row is the inequality
`l_cool(t) <= (1 - z(t)) * p_nom`. -/
lemma sat_coolCon (asgn : Atom → ℚ) (hp : String) (pnom : ℚ) (t : ℕ) :
    sat asgn (coolCon hp pnom t)
      ↔ asgn (Atom.linkP (hp ++ "_cooling") t)
          ≤ (1 - asgn (Atom.mode hp t)) * pnom := by
  simp only [sat, coolCon, List.map_cons, List.map_nil, List.sum_cons,
    List.sum_nil, one_mul, add_zero]
  constructor
  · intro h
    nlinarith [h]
  · intro h
    nlinarith [h]

lemma hpList_eq_hp_types : hpList = hp_types := rfl

/-- C1: for every heat-pump family present in the network (both links of the
pair in the link index) and every snapshot, the formulated problem contains
the binary mode variable `z(t)` and exactly the three rows
`l_heat(t) + l_cool(t) <= p_nom`, `l_heat(t) <= z(t) * p_nom`,
`l_cool(t) <= (1 - z(t)) * p_nom`, where `p_nom` is the heating link's
nominal capacity; and for a network built by `build_model` the problem has
binary variables exactly when some heat-pump-family device is selected, so
the formulation is mixed-integer then and purely linear otherwise. -/
theorem c1_heat_pump_formulation :
    (∀ (net : Network) (hp : String), hp ∈ hpList → hpActive net hp = true →
      ∀ t : ℕ, t < net.hours →
        ((hp ++ "_mode") ∈ (extra_functionality net).binaries
          ∧ (extra_functionality net).constraints.filter (famFilter hp t)
              = [capCon hp (linkPnom net (hp ++ "_heating")) t,
                 heatCon hp (linkPnom net (hp ++ "_heating")) t,
                 coolCon hp (linkPnom net (hp ++ "_heating")) t]
          ∧ ∀ asgn : Atom → ℚ,
              (sat asgn (capCon hp (linkPnom net (hp ++ "_heating")) t)
                ↔ asgn (Atom.linkP (hp ++ "_heating") t)
                    + asgn (Atom.linkP (hp ++ "_cooling") t)
                    ≤ linkPnom net (hp ++ "_heating"))
              ∧ (sat asgn (heatCon hp (linkPnom net (hp ++ "_heating")) t)
                  ↔ asgn (Atom.linkP (hp ++ "_heating") t)
                      ≤ asgn (Atom.mode hp t) * linkPnom net (hp ++ "_heating"))
              ∧ (sat asgn (coolCon hp (linkPnom net (hp ++ "_heating")) t)
                  ↔ asgn (Atom.linkP (hp ++ "_cooling") t)
                      ≤ (1 - asgn (Atom.mode hp t))
                          * linkPnom net (hp ++ "_heating"))))
    ∧ ∀ (hours : ℕ) (data : Data) (comps : Option (List String))
        (net : Network),
        build_model hours data comps = Except.ok net →
        ((extra_functionality net).binaries ≠ []
          ↔ ∃ hp ∈ hpList, hp ∈ devicesOf comps) := by
  constructor
  · intro net hp hmem ha t ht
    have hne : net.links.isEmpty = false := links_ne_nil_of_active net hp ha
    have hguard : ¬(net.links.isEmpty = true) := by
      rw [hne]
      exact Bool.false_ne_true
    refine ⟨?_, ?_, ?_⟩
    · unfold extra_functionality
      rw [if_neg hguard]
      show (hp ++ "_mode") ∈ hpList.flatMap (familyBins net)
      rw [List.mem_flatMap]
      refine ⟨hp, hmem, ?_⟩
      rw [familyBins, if_pos ha]
      exact List.mem_singleton.mpr rfl
    · unfold extra_functionality
      rw [if_neg hguard]
      show (hpList.flatMap (familyCons net)).filter (famFilter hp t) = _
      simp only [hpList, List.mem_cons, List.mem_singleton,
        List.not_mem_nil, or_false] at hmem
      rcases hmem with rfl | rfl | rfl
      · rw [show hpList = ["ashp", "gshp_shallow", "gshp_deep"] from rfl,
          List.flatMap_cons, List.flatMap_cons, List.flatMap_cons,
          List.flatMap_nil, List.append_nil, List.filter_append,
          List.filter_append,
          familyCons_filter_self net "ashp" ha t ht,
          familyCons_filter_other net "ashp" "gshp_shallow" t
            (by decide) (by decide) (by decide),
          familyCons_filter_other net "ashp" "gshp_deep" t
            (by decide) (by decide) (by decide)]
        rfl
      · rw [show hpList = ["ashp", "gshp_shallow", "gshp_deep"] from rfl,
          List.flatMap_cons, List.flatMap_cons, List.flatMap_cons,
          List.flatMap_nil, List.append_nil, List.filter_append,
          List.filter_append,
          familyCons_filter_self net "gshp_shallow" ha t ht,
          familyCons_filter_other net "gshp_shallow" "ashp" t
            (by decide) (by decide) (by decide),
          familyCons_filter_other net "gshp_shallow" "gshp_deep" t
            (by decide) (by decide) (by decide)]
        rfl
      · rw [show hpList = ["ashp", "gshp_shallow", "gshp_deep"] from rfl,
          List.flatMap_cons, List.flatMap_cons, List.flatMap_cons,
          List.flatMap_nil, List.append_nil, List.filter_append,
          List.filter_append,
          familyCons_filter_self net "gshp_deep" ha t ht,
          familyCons_filter_other net "gshp_deep" "ashp" t
            (by decide) (by decide) (by decide),
          familyCons_filter_other net "gshp_deep" "gshp_shallow" t
            (by decide) (by decide) (by decide)]
        rfl
    · intro asgn
      exact ⟨sat_capCon asgn hp (linkPnom net (hp ++ "_heating")) t,
        sat_heatCon asgn hp (linkPnom net (hp ++ "_heating")) t,
        sat_coolCon asgn hp (linkPnom net (hp ++ "_heating")) t⟩
  · intro hours data comps net hok
    have hnet := build_ok_mkNet hok
    subst hnet
    rw [binaries_ne_nil_iff]
    constructor
    · rintro ⟨hp, hmem, ha⟩
      refine ⟨hp, hmem, ?_⟩
      rw [hpActive_mkNet hours data comps hp (hpList_eq_hp_types ▸ hmem)] at ha
      exact List.elem_iff.mp ha
    · rintro ⟨hp, hmem, hd⟩
      refine ⟨hp, hmem, ?_⟩
      rw [hpActive_mkNet hours data comps hp (hpList_eq_hp_types ▸ hmem)]
      exact List.elem_iff.mpr hd

/-- A concrete one-snapshot configuration selecting only the `ashp`
heat-pump family. -/
def dataHP : Data :=
  [("elec_load", Val.series [50]), ("heat_load", Val.series [100]),
   ("cool_load", Val.series [5]), ("ashp_p_nom", Val.num 40)]

/-- The network `build_model 1 dataHP (some ["ashp"])` produces. -/
def netHP : Network := mkNet 1 dataHP (some ["ashp"])

theorem c1_heat_pump_formulation_witness :
    (("ashp" ++ "_mode") ∈ (extra_functionality netHP).binaries
      ∧ (extra_functionality netHP).constraints.filter (famFilter ("ashp") 0)
          = [capCon ("ashp") (linkPnom netHP ("ashp" ++ "_heating")) 0,
             heatCon ("ashp") (linkPnom netHP ("ashp" ++ "_heating")) 0,
             coolCon ("ashp") (linkPnom netHP ("ashp" ++ "_heating")) 0]
      ∧ ∀ asgn : Atom → ℚ,
          (sat asgn (capCon ("ashp") (linkPnom netHP ("ashp" ++ "_heating")) 0)
            ↔ asgn (Atom.linkP ("ashp" ++ "_heating") 0)
                + asgn (Atom.linkP ("ashp" ++ "_cooling") 0)
                ≤ linkPnom netHP ("ashp" ++ "_heating"))
          ∧ (sat asgn
                (heatCon ("ashp") (linkPnom netHP ("ashp" ++ "_heating")) 0)
              ↔ asgn (Atom.linkP ("ashp" ++ "_heating") 0)
                  ≤ asgn (Atom.mode ("ashp") 0)
                      * linkPnom netHP ("ashp" ++ "_heating"))
          ∧ (sat asgn
                (coolCon ("ashp") (linkPnom netHP ("ashp" ++ "_heating")) 0)
              ↔ asgn (Atom.linkP ("ashp" ++ "_cooling") 0)
                  ≤ (1 - asgn (Atom.mode ("ashp") 0))
                      * linkPnom netHP ("ashp" ++ "_heating")))
    ∧ ((extra_functionality netHP).binaries ≠ []
        ↔ ∃ hp ∈ hpList, hp ∈ devicesOf (some ["ashp"])) := by
  exact ⟨c1_heat_pump_formulation.1 netHP "ashp" (by decide) (by decide) 0
      (by decide),
    c1_heat_pump_formulation.2 1 dataHP (some ["ashp"]) netHP rfl⟩

/-- C2 (amended): for every selected heat-pump family, `build_model` creates
exactly one heating and one cooling link, both with nominal capacity read
from the one parameter `<name>_p_nom` (default 40), and the family is then
active for the formulator; but the pairing is not recorded anywhere — the
formulator re-derives it at formulation time purely from the link names, so
the active families depend only on the name column of the link table. -/
theorem c2_heat_pump_pairing_amended :
    (∀ (hours : ℕ) (data : Data) (comps : Option (List String))
        (net : Network) (hp : String),
        build_model hours data comps = Except.ok net → hp ∈ hp_types →
        hp ∈ devicesOf comps →
        ((net.links.filter (fun l => l.name == hp ++ "_heating")).map
              Link.p_nom = [getNum data (hp ++ "_p_nom") 40]
          ∧ (net.links.filter (fun l => l.name == hp ++ "_cooling")).map
                Link.p_nom = [getNum data (hp ++ "_p_nom") 40]
          ∧ hpActive net hp = true))
    ∧ ∀ net₁ net₂ : Network,
        net₁.links.map Link.name = net₂.links.map Link.name →
        ∀ hp : String, hpActive net₁ hp = hpActive net₂ hp := by
  constructor
  · intro hours data comps net hp hok hmem hd
    have hnet := build_ok_mkNet hok
    subst hnet
    have hc : (devicesOf comps).contains hp = true := List.elem_iff.mpr hd
    have hlinks : (mkNet hours data comps).links
        = mkLinks data (devicesOf comps) := rfl
    refine ⟨?_, ?_, ?_⟩
    · rw [hlinks]
      simp only [hp_types, List.mem_cons, List.mem_singleton,
        List.not_mem_nil, or_false] at hmem
      rcases hmem with rfl | rfl | rfl <;>
        simp [mkLinks, hp_types, hpLinks, boilerLink, elyLink, fcLink,
          List.filter_append, apply_ite (List.filter _), hc, hd]
    · rw [hlinks]
      simp only [hp_types, List.mem_cons, List.mem_singleton,
        List.not_mem_nil, or_false] at hmem
      rcases hmem with rfl | rfl | rfl <;>
        simp [mkLinks, hp_types, hpLinks, boilerLink, elyLink, fcLink,
          List.filter_append, apply_ite (List.filter _), hc, hd]
    · rw [hpActive_mkNet hours data comps hp hmem]
      exact hc
  · intro net₁ net₂ hnames hp
    unfold hpActive
    rw [hasLink_names net₁ (hp ++ "_heating"),
      hasLink_names net₁ (hp ++ "_cooling"),
      hasLink_names net₂ (hp ++ "_heating"),
      hasLink_names net₂ (hp ++ "_cooling"), hnames]

theorem c2_heat_pump_pairing_amended_witness :
    ((netHP.links.filter
          (fun l => l.name == "ashp" ++ "_heating")).map Link.p_nom
        = [getNum dataHP ("ashp" ++ "_p_nom") 40]
      ∧ (netHP.links.filter
            (fun l => l.name == "ashp" ++ "_cooling")).map Link.p_nom
          = [getNum dataHP ("ashp" ++ "_p_nom") 40]
      ∧ hpActive netHP ("ashp") = true)
    ∧ hpActive netHP ("gshp_deep") = hpActive netHP ("gshp_deep") := by
  exact ⟨c2_heat_pump_pairing_amended.1 1 dataHP (some ["ashp"]) netHP "ashp"
      rfl (by decide) (by decide),
    c2_heat_pump_pairing_amended.2 netHP netHP rfl "gshp_deep"⟩

/-- The network `netHP` with the cooling link renamed and nothing else
changed. -/
def netHPrenamed : Network :=
  { netHP with
    links := netHP.links.map (fun l =>
      if l.name == "ashp_cooling" then { l with name := "ashp_chill" }
      else l) }

/-- C2 (counterexample): the pairing is derived from link names at
formulation time, not recorded at build time: `netHPrenamed` agrees with the
built network `netHP` on every link attribute except one name, yet the
formulator produces the mode variable and constraint rows for `netHP` and
nothing at all for `netHPrenamed`. -/
theorem c2_pairing_by_name_counterexample :
    build_model 1 dataHP (some ["ashp"]) = Except.ok netHP
      ∧ netHPrenamed.links.map (fun l => { l with name := "x" })
          = netHP.links.map (fun l => { l with name := "x" })
      ∧ (extra_functionality netHP).binaries = ["ashp_mode"]
      ∧ (extra_functionality netHP).constraints ≠ []
      ∧ (extra_functionality netHPrenamed).binaries = []
      ∧ (extra_functionality netHPrenamed).constraints = [] := by
  refine ⟨rfl, rfl, rfl, ?_, rfl, rfl⟩
  intro h
  have h3 : (extra_functionality netHP).constraints.length = 3 := rfl
  rw [h] at h3
  cases h3

/-- C3: every successful build creates exactly the four buses and the three
base loads (wired to their carrier buses), plus a hydrogen load exactly when
the configuration supplies an `h2_load` series. -/
theorem c3_buses_and_loads :
    ∀ (hours : ℕ) (data : Data) (comps : Option (List String))
      (net : Network),
      build_model hours data comps = Except.ok net →
      net.buses = [⟨"electricity", "AC"⟩, ⟨"heat", "heat"⟩,
          ⟨"cooling", "cooling"⟩, ⟨"hydrogen", "H2"⟩]
        ∧ net.loads.map Load.name
            = ["elec_load", "heat_load", "cool_load"]
              ++ (if hasKey data ("h2_load") = true then ["h2_load"] else [])
        ∧ (∃ l ∈ net.loads, l.name = "elec_load" ∧ l.bus = "electricity")
        ∧ (∃ l ∈ net.loads, l.name = "heat_load" ∧ l.bus = "heat")
        ∧ (∃ l ∈ net.loads, l.name = "cool_load" ∧ l.bus = "cooling")
        ∧ ((∃ l ∈ net.loads, l.name = "h2_load" ∧ l.bus = "hydrogen")
            ↔ hasKey data ("h2_load") = true) := by
  intro hours data comps net hok
  have hnet := build_ok_mkNet hok
  subst hnet
  refine ⟨rfl, ?_, ?_, ?_, ?_, ?_⟩ <;>
    cases hh : data.lookup ("h2_load") <;>
      simp [mkNet, baseLoads, h2Loads, hasKey, hh]

/-- A configuration also supplying a hydrogen-demand series. -/
def dataH2 : Data := dataHP ++ [("h2_load", Val.series [0])]

theorem c3_buses_and_loads_witness :
    (mkNet 1 dataH2 (some [])).buses = [⟨"electricity", "AC"⟩,
        ⟨"heat", "heat"⟩, ⟨"cooling", "cooling"⟩, ⟨"hydrogen", "H2"⟩]
      ∧ (mkNet 1 dataH2 (some [])).loads.map Load.name
          = ["elec_load", "heat_load", "cool_load"]
            ++ (if hasKey dataH2 ("h2_load") = true then ["h2_load"] else [])
      ∧ (∃ l ∈ (mkNet 1 dataH2 (some [])).loads,
          l.name = "elec_load" ∧ l.bus = "electricity")
      ∧ (∃ l ∈ (mkNet 1 dataH2 (some [])).loads,
          l.name = "heat_load" ∧ l.bus = "heat")
      ∧ (∃ l ∈ (mkNet 1 dataH2 (some [])).loads,
          l.name = "cool_load" ∧ l.bus = "cooling")
      ∧ ((∃ l ∈ (mkNet 1 dataH2 (some [])).loads,
            l.name = "h2_load" ∧ l.bus = "hydrogen")
          ↔ hasKey dataH2 ("h2_load") = true) :=
  c3_buses_and_loads 1 dataH2 (some []) (mkNet 1 dataH2 (some [])) rfl

/-- C4: every selected converter is wired per the fixed table —
electric boiler electricity to heat, electrolyzer electricity to hydrogen,
fuel cell hydrogen to electricity and heat from the same input draw with
`efficiency` and `efficiency2`; and a selected converter is present. -/
theorem c4_converter_wiring :
    ∀ (hours : ℕ) (data : Data) (comps : Option (List String))
      (net : Network),
      build_model hours data comps = Except.ok net →
      (∀ l ∈ net.links, l.name = "electric_boiler" →
          l.bus0 = "electricity" ∧ l.bus1 = "heat" ∧ l.bus2 = none)
        ∧ (∀ l ∈ net.links, l.name = "electrolyzer" →
            l.bus0 = "electricity" ∧ l.bus1 = "hydrogen" ∧ l.bus2 = none)
        ∧ (∀ l ∈ net.links, l.name = "fuel_cell" →
            l.bus0 = "hydrogen" ∧ l.bus1 = "electricity"
              ∧ l.bus2 = some "heat"
              ∧ l.efficiency = getNum data ("fc_eff_elec") 0.45
              ∧ l.efficiency2 = some (getNum data ("fc_eff_heat") 0.40))
        ∧ ("electric_boiler" ∈ devicesOf comps →
            ∃ l ∈ net.links, l.name = "electric_boiler")
        ∧ ("electrolyzer" ∈ devicesOf comps →
            ∃ l ∈ net.links, l.name = "electrolyzer")
        ∧ ("fuel_cell" ∈ devicesOf comps →
            ∃ l ∈ net.links, l.name = "fuel_cell") := by
  intro hours data comps net hok
  have hnet := build_ok_mkNet hok
  subst hnet
  have hlinks : (mkNet hours data comps).links
      = mkLinks data (devicesOf comps) := rfl
  refine ⟨?_, ?_, ?_, ?_, ?_, ?_⟩ <;> rw [hlinks]
  · intro l hl
    simp only [mkLinks, hp_types, List.flatMap_cons, List.flatMap_nil,
      List.append_nil, List.mem_append, mem_if_list, hpLinks, boilerLink,
      elyLink, fcLink, List.mem_cons, List.mem_singleton,
      List.not_mem_nil, or_false] at hl
    rcases hl with ((⟨_, rfl⟩ | (⟨_, rfl | rfl⟩ | ⟨_, rfl | rfl⟩ | ⟨_, rfl | rfl⟩)) | ⟨_, rfl⟩) | ⟨_, rfl⟩ <;>
      simp
  · intro l hl
    simp only [mkLinks, hp_types, List.flatMap_cons, List.flatMap_nil,
      List.append_nil, List.mem_append, mem_if_list, hpLinks, boilerLink,
      elyLink, fcLink, List.mem_cons, List.mem_singleton,
      List.not_mem_nil, or_false] at hl
    rcases hl with ((⟨_, rfl⟩ | (⟨_, rfl | rfl⟩ | ⟨_, rfl | rfl⟩ | ⟨_, rfl | rfl⟩)) | ⟨_, rfl⟩) | ⟨_, rfl⟩ <;>
      simp
  · intro l hl
    simp only [mkLinks, hp_types, List.flatMap_cons, List.flatMap_nil,
      List.append_nil, List.mem_append, mem_if_list, hpLinks, boilerLink,
      elyLink, fcLink, List.mem_cons, List.mem_singleton,
      List.not_mem_nil, or_false] at hl
    rcases hl with ((⟨_, rfl⟩ | (⟨_, rfl | rfl⟩ | ⟨_, rfl | rfl⟩ | ⟨_, rfl | rfl⟩)) | ⟨_, rfl⟩) | ⟨_, rfl⟩ <;>
      simp
  · intro hd
    refine ⟨boilerLink data, ?_, rfl⟩
    simp only [mkLinks, List.mem_append, mem_if_list]
    exact Or.inl (Or.inl (Or.inl ⟨List.elem_iff.mpr hd, List.mem_singleton.mpr rfl⟩))
  · intro hd
    refine ⟨elyLink data, ?_, rfl⟩
    simp only [mkLinks, List.mem_append, mem_if_list]
    exact Or.inl (Or.inr ⟨List.elem_iff.mpr hd, List.mem_singleton.mpr rfl⟩)
  · intro hd
    refine ⟨fcLink data, ?_, rfl⟩
    simp only [mkLinks, List.mem_append, mem_if_list]
    exact Or.inr ⟨List.elem_iff.mpr hd, List.mem_singleton.mpr rfl⟩

theorem c4_converter_wiring_witness :
    ∃ l ∈ (mkNet 1 dataHP
        (some ["electric_boiler", "electrolyzer", "fuel_cell"])).links,
      l.name = "fuel_cell" :=
  (c4_converter_wiring 1 dataHP
      (some ["electric_boiler", "electrolyzer", "fuel_cell"])
      (mkNet 1 dataHP (some ["electric_boiler", "electrolyzer", "fuel_cell"]))
      rfl).2.2.2.2.2 (by decide)

/-- C5 (counterexample): with `grid` selected, the built network's generator
is created with `p_nom_extendable = True` — the grid capacity is a decision
variable sized by the optimizer, contrary to the claim that no device
capacity is. -/
theorem c5_grid_extendable_counterexample :
    build_model 1 dataHP (some ["grid"])
        = Except.ok (mkNet 1 dataHP (some ["grid"]))
      ∧ (mkNet 1 dataHP (some ["grid"])).generators.map
          (fun g => (g.name, g.p_nom_extendable)) = [("grid", true)] :=
  ⟨rfl, rfl⟩

/-- C5 (amended): every device except the `grid` generator has a fixed
nominal capacity (no extendable flag), and no component carries a capital
cost, so the objective has no investment term; the `grid` generator alone is
created extendable (effectively unbounded purchase), at zero capital cost. -/
theorem c5_fixed_capacities_amended :
    ∀ (hours : ℕ) (data : Data) (comps : Option (List String))
      (net : Network),
      build_model hours data comps = Except.ok net →
      (∀ g ∈ net.generators,
          (g.p_nom_extendable = true ↔ g.name = "grid") ∧ g.capital_cost = 0)
        ∧ (∀ l ∈ net.links, l.p_nom_extendable = false ∧ l.capital_cost = 0)
        ∧ (∀ s ∈ net.storage_units,
            s.p_nom_extendable = false ∧ s.capital_cost = 0) := by
  intro hours data comps net hok
  have hnet := build_ok_mkNet hok
  subst hnet
  refine ⟨?_, ?_, ?_⟩
  · intro g hg
    simp only [mkNet, mkGens, List.mem_append, mem_if_list, gridGen, pvGen,
      List.mem_singleton] at hg
    rcases hg with ⟨_, rfl⟩ | ⟨_, rfl⟩ <;> simp
  · intro l hl
    simp only [mkNet, mkLinks, hp_types, List.flatMap_cons, List.flatMap_nil,
      List.append_nil, List.mem_append, mem_if_list, hpLinks, boilerLink,
      elyLink, fcLink, List.mem_cons, List.mem_singleton, List.not_mem_nil,
      or_false] at hl
    rcases hl with ((⟨_, rfl⟩ | (⟨_, rfl | rfl⟩ | ⟨_, rfl | rfl⟩ | ⟨_, rfl | rfl⟩)) | ⟨_, rfl⟩) | ⟨_, rfl⟩ <;>
      exact ⟨rfl, rfl⟩
  · intro s hs
    simp only [mkNet, mkStorage, List.mem_append, mem_if_list, batteryUnit,
      h2sUnit, List.mem_singleton] at hs
    rcases hs with ⟨_, rfl⟩ | ⟨_, rfl⟩ <;> exact ⟨rfl, rfl⟩

theorem c5_fixed_capacities_amended_witness :
    ((gridGen dataHP).p_nom_extendable = true
        ↔ (gridGen dataHP).name = "grid")
      ∧ (gridGen dataHP).capital_cost = 0 :=
  (c5_fixed_capacities_amended 1 dataHP (some ["grid"])
      (mkNet 1 dataHP (some ["grid"])) rfl).1
    (gridGen dataHP) (List.mem_singleton.mpr rfl)

/-- C10: an omitted component list selects the full default portfolio — both
generators and all eight optional devices (heat pumps appearing as their two
links each). -/
theorem c10_default_portfolio :
    ∀ (hours : ℕ) (data : Data) (net : Network),
      build_model hours data none = Except.ok net →
      net.generators.map Generator.name = ["grid", "pv"]
        ∧ net.links.map Link.name
            = ["electric_boiler", "ashp_heating", "ashp_cooling",
               "gshp_shallow_heating", "gshp_shallow_cooling",
               "gshp_deep_heating", "gshp_deep_cooling", "electrolyzer",
               "fuel_cell"]
        ∧ net.storage_units.map StorageUnit.name
            = ["battery", "h2_storage"] := by
  intro hours data net hok
  have hnet := build_ok_mkNet hok
  subst hnet
  refine ⟨?_, ?_, ?_⟩
  · simp [mkNet, mkGens, selGen, gridGen, pvGen]
  · rw [show (mkNet hours data none).links
        = mkLinks data (devicesOf none) from rfl, mkLinks_names]
    simp [devicesOf, allDevices]
  · simp [mkNet, mkStorage, devicesOf, allDevices, batteryUnit, h2sUnit]

/-- A configuration with the photovoltaic availability series present, so
that the full default build succeeds. -/
def dataFull : Data := dataHP ++ [("pv_pu", Val.series [0])]

theorem c10_default_portfolio_witness :
    (mkNet 1 dataFull none).generators.map Generator.name = ["grid", "pv"]
      ∧ (mkNet 1 dataFull none).links.map Link.name
          = ["electric_boiler", "ashp_heating", "ashp_cooling",
             "gshp_shallow_heating", "gshp_shallow_cooling",
             "gshp_deep_heating", "gshp_deep_cooling", "electrolyzer",
             "fuel_cell"]
      ∧ (mkNet 1 dataFull none).storage_units.map StorageUnit.name
          = ["battery", "h2_storage"] :=
  c10_default_portfolio 1 dataFull (mkNet 1 dataFull none) rfl

/-- A configuration whose series have length 3, shorter than a horizon of
24, and which omits `grid_cost`. -/
def dataBad : Data :=
  [("elec_load", Val.series [1, 2, 3]), ("heat_load", Val.series [1, 2, 3]),
   ("cool_load", Val.series [1, 2, 3])]

/-- A length-consistent two-snapshot configuration that selects `grid` but
omits `grid_cost`. -/
def dataNoGC : Data :=
  [("elec_load", Val.series [1, 2]), ("heat_load", Val.series [1, 2]),
   ("cool_load", Val.series [1, 2])]

/-- C8 (counterexample): with `grid` selected, its referenced `grid_cost`
parameter is missing and has no documented default — yet building succeeds,
silently storing `None` as the grid marginal cost, so no error of any kind
(in particular no `ConfigurationError`) is raised for a missing no-default
parameter.  A wrong-length series, by contrast, does abort the build, but
with a pandas `ValueError`, not a `ConfigurationError`. -/
theorem c8_no_validation_counterexample :
    (build_model 2 dataNoGC (some ["grid"])).isOk = true
      ∧ dataNoGC.lookup ("grid_cost") = none
      ∧ (mkNet 2 dataNoGC (some ["grid"])).generators.map
          (fun g => (g.name, g.marginal_cost)) = [("grid", none)]
      ∧ build_model 24 dataBad (some ["grid"])
          = Except.error (PyErr.valueError 3 24) :=
  ⟨rfl, rfl, rfl, rfl⟩

/-- C8 (amended): build failures surface before any solve attempt but carry
plain Python exception types — no `ConfigurationError` type exists.  The
build succeeds exactly when every bracket-accessed series key is present
and every supplied per-snapshot series has one entry per snapshot; a
`KeyError` names a missing required key (`elec_load`, `heat_load`,
`cool_load`, or `pv_pu` when `pv` is selected); a `ValueError` reports a
supplied series whose length differs from the horizon.  A parameter read
via `dict.get` that is missing never causes a failure: its documented
default is used, or `None` is stored (`grid_cost`). -/
theorem c8_build_validation_amended :
    ∀ (hours : ℕ) (data : Data) (comps : Option (List String)),
      ((build_model hours data comps).isOk
          = ((reqKeys comps).all (fun k => hasKey data k)
              && (seriesArgs data comps).all (seriesOk hours)))
        ∧ (∀ k, build_model hours data comps
              = Except.error (PyErr.keyError k) →
            hasKey data k = false ∧ k ∈ reqKeys comps)
        ∧ (∀ g e, build_model hours data comps
              = Except.error (PyErr.valueError g e) →
            e = hours ∧ ∃ xs, Val.series xs ∈ seriesArgs data comps
              ∧ xs.length = g ∧ g ≠ hours) := by
  intro hours data comps
  exact ⟨build_isOk hours data comps,
    fun k h => build_keyError h,
    fun g e h => build_valueError h⟩

theorem c8_build_validation_amended_witness :
    ((build_model 1 ([] : Data) (some [])).isOk
        = ((reqKeys (some [])).all (fun k => hasKey ([] : Data) k)
            && (seriesArgs ([] : Data) (some [])).all (seriesOk 1)))
      ∧ (hasKey ([] : Data) ("elec_load") = false
          ∧ "elec_load" ∈ reqKeys (some []))
      ∧ (24 = 24 ∧ ∃ xs, Val.series xs ∈ seriesArgs dataBad (some ["grid"])
          ∧ xs.length = 3 ∧ 3 ≠ 24) :=
  ⟨(c8_build_validation_amended 1 [] (some [])).1,
   (c8_build_validation_amended 1 [] (some [])).2.1 "elec_load" rfl,
   (c8_build_validation_amended 24 dataBad (some ["grid"])).2.2 3 24 rfl⟩

/-- A network whose `ashp` pairing references two different capacities. -/
def netMismatch : Network :=
  { hours := 1, buses := defaultBuses, generators := [], loads := [],
    links :=
      [{ name := "ashp_heating", bus0 := "electricity", bus1 := "heat",
         p_nom := 40, efficiency := 3 },
       { name := "ashp_cooling", bus0 := "electricity", bus1 := "cooling",
         p_nom := 100, efficiency := 4 }],
    storage_units := [] }

/-- C9 (counterexample): the two links of the `ashp` pairing carry different
`p_nom` values (40 and 100), yet formulation does not fail with any error:
the formulator emits the three constraint rows built from the heating link's
40, silently ignoring the cooling link's 100. -/
theorem c9_mismatched_pnom_counterexample :
    (∃ l ∈ netMismatch.links, l.name = "ashp_cooling" ∧ l.p_nom = 100)
      ∧ linkPnom netMismatch ("ashp_heating") = 40
      ∧ (extra_functionality netMismatch).constraints
          = [capCon ("ashp") 40 0, heatCon ("ashp") 40 0,
             coolCon ("ashp") 40 0]
      ∧ (extra_functionality netMismatch).binaries = ["ashp_mode"] := by
  refine ⟨⟨_, List.mem_cons_of_mem _ (List.mem_singleton.mpr rfl), rfl, rfl⟩,
    rfl, rfl, rfl⟩

/-- C9 (amended): the formulator performs no consistency or bus-existence
checks and cannot fail (no `TopologyError` exists): its output is fully
determined by the horizon, the link-name column, and the heating links'
nominal capacities — the cooling links' capacities and all bus references
are ignored, the heating link's `p_nom` being used for all three rows even
on a mismatched pair. -/
theorem c9_formulator_no_checks_amended :
    ∀ net₁ net₂ : Network, net₁.hours = net₂.hours →
      net₁.links.map Link.name = net₂.links.map Link.name →
      (∀ hp ∈ hpList, linkPnom net₁ (hp ++ "_heating")
          = linkPnom net₂ (hp ++ "_heating")) →
      extra_functionality net₁ = extra_functionality net₂ := by
  intro net₁ net₂ hh hn hpn
  have hact : ∀ hp : String, hpActive net₁ hp = hpActive net₂ hp := by
    intro hp
    unfold hpActive
    rw [hasLink_names net₁ (hp ++ "_heating"),
      hasLink_names net₁ (hp ++ "_cooling"),
      hasLink_names net₂ (hp ++ "_heating"),
      hasLink_names net₂ (hp ++ "_cooling"), hn]
  have hempty : net₁.links.isEmpty = net₂.links.isEmpty := by
    cases h1 : net₁.links <;> cases h2 : net₂.links <;>
      rw [h1, h2] at hn <;> simp_all
  have hcons : ∀ hp ∈ hpList, familyCons net₁ hp = familyCons net₂ hp := by
    intro hp hmem
    unfold familyCons
    rw [hact hp, hh, hpn hp hmem]
  have hbins : ∀ hp : String, familyBins net₁ hp = familyBins net₂ hp := by
    intro hp
    unfold familyBins
    rw [hact hp]
  unfold extra_functionality
  rw [hempty]
  split
  · rfl
  · rw [show hpList = ["ashp", "gshp_shallow", "gshp_deep"] from rfl,
      List.flatMap_cons, List.flatMap_cons, List.flatMap_cons,
      List.flatMap_nil, List.flatMap_cons, List.flatMap_cons,
      List.flatMap_cons, List.flatMap_nil,
      hbins "ashp", hbins "gshp_shallow", hbins "gshp_deep",
      hcons "ashp" (by decide), hcons "gshp_shallow" (by decide),
      hcons "gshp_deep" (by decide)]
    rfl

/-- The mismatched network with the cooling link's capacity and bus
references changed again. -/
def netMismatch2 : Network :=
  { netMismatch with
    links :=
      [{ name := "ashp_heating", bus0 := "electricity", bus1 := "heat",
         p_nom := 40, efficiency := 3 },
       { name := "ashp_cooling", bus0 := "nowhere", bus1 := "nirvana",
         p_nom := 7, efficiency := 4 }] }

theorem c9_formulator_no_checks_amended_witness :
    extra_functionality netMismatch = extra_functionality netMismatch2 :=
  c9_formulator_no_checks_amended netMismatch netMismatch2 rfl rfl
    (by intro hp hmem; fin_cases hmem <;> rfl)

/-- The priority loop succeeds exactly when some listed solver returns the
status `'ok'`. -/
lemma trySolvers_fst (beh : Option String → Except String String) :
    ∀ l : List String, (trySolvers beh l).1 = true
      ↔ ∃ s ∈ l, beh (some s) = Except.ok "ok" := by
  intro l
  induction l with
  | nil => simp [trySolvers]
  | cons s rest ih =>
    unfold trySolvers
    cases hb : beh (some s) with
    | ok st =>
      by_cases hst : st = "ok"
      · subst hst
        simp [hb]
      · simp [hb, hst, ih]
    | error e =>
      simp [hb, ih]

/-- `solve` succeeds exactly when a priority backend returns `'ok'`, or no
priority backend does and the default attempt merely completes without an
exception (whatever its status). -/
lemma solve_eq_true_iff (beh : Option String → Except String String) :
    solve beh = true
      ↔ (∃ s ∈ backendOrder, beh (some s) = Except.ok "ok")
        ∨ ((∀ s ∈ backendOrder, beh (some s) ≠ Except.ok "ok")
            ∧ ∃ st, beh none = Except.ok st) := by
  unfold solve solveResult
  by_cases h : (trySolvers beh backendOrder).1 = true
  · rw [if_pos h]
    exact iff_of_true rfl (Or.inl ((trySolvers_fst beh backendOrder).mp h))
  · have hnone : ∀ s ∈ backendOrder, beh (some s) ≠ Except.ok "ok" := by
      intro s hs hc
      exact h ((trySolvers_fst beh backendOrder).mpr ⟨s, hs, hc⟩)
    rw [if_neg h]
    cases hb : beh none with
    | ok st =>
      exact iff_of_true rfl (Or.inr ⟨hnone, st, rfl⟩)
    | error e =>
      refine iff_of_false ?_ ?_
      · intro hc
        cases hc
      · rintro (⟨s, hs, hc⟩ | ⟨_, st, hst⟩)
        · exact hnone s hs hc
        · cases hst

/-- C6 (amended): `solve` tries gurobi, copt, glpk in order, moving on when
an attempt raises or returns a status other than `'ok'` and stopping at the
first `'ok'`; if none returns `'ok'`, it makes one default attempt and
reports success whenever that attempt merely does not raise — the default
attempt's status is not inspected. -/
theorem c6_solver_priority_amended :
    ∀ beh : Option String → Except String String,
      (solve beh = true
        ↔ (∃ s ∈ backendOrder, beh (some s) = Except.ok "ok")
          ∨ ((∀ s ∈ backendOrder, beh (some s) ≠ Except.ok "ok")
              ∧ ∃ st, beh none = Except.ok st))
      ∧ (beh (some "gurobi") = Except.ok "ok" →
          (solveResult beh).2 = [some "gurobi"]) := by
  intro beh
  refine ⟨solve_eq_true_iff beh, ?_⟩
  intro h
  simp [solveResult, backendOrder, trySolvers, h]

/-- A backend behaviour returning a non-optimal status everywhere, without
ever raising. -/
def behWarn : Option String → Except String String :=
  fun _ => Except.ok "warning"

/-- C6 (counterexample): every backend, the default included, returns the
non-optimal status `'warning'`, yet `solve` reports success — because the
default fallback's status is never inspected, success is not equivalent to
some backend having returned an optimal status. -/
theorem c6_fallback_status_counterexample :
    solve behWarn = true
      ∧ behWarn (some "gurobi") = Except.ok "warning"
      ∧ behWarn (some "copt") = Except.ok "warning"
      ∧ behWarn (some "glpk") = Except.ok "warning"
      ∧ behWarn none = Except.ok "warning" :=
  ⟨rfl, rfl, rfl, rfl, rfl⟩

/-- A backend behaviour whose first solver immediately returns `'ok'`. -/
def behOk : Option String → Except String String :=
  fun _ => Except.ok "ok"

theorem c6_solver_priority_amended_witness :
    solve behOk = true ∧ (solveResult behOk).2 = [some "gurobi"] :=
  ⟨(c6_solver_priority_amended behOk).1.mpr
      (Or.inl ⟨"gurobi", by decide, rfl⟩),
   (c6_solver_priority_amended behOk).2 rfl⟩

/-- A backend behaviour in which everything raises, with one failure
reason. -/
def behFailA : Option String → Except String String :=
  fun _ => Except.error "license expired"

/-- The same shape of total failure with a different reason. -/
def behFailB : Option String → Except String String :=
  fun _ => Except.error "connection refused"

/-- C7 (counterexample): when every backend and the default fallback raise,
`solve` returns the bare boolean `False` — the identical value for two runs
whose per-backend failure reasons differ, so the returned value carries no
list of failure reasons (they are only printed). -/
theorem c7_failure_value_counterexample :
    solve behFailA = false ∧ solve behFailB = false
      ∧ behFailA (some "gurobi") ≠ behFailB (some "gurobi") := by
  refine ⟨rfl, rfl, ?_⟩
  intro h
  simp [behFailA, behFailB] at h

/-- C7 (amended): `solve` never propagates an exception — it always returns
a boolean — and it returns `False` exactly when no priority backend returns
`'ok'` and the default attempt raises; the failure reasons are not part of
the returned value. -/
theorem c7_failure_reporting_amended :
    ∀ beh : Option String → Except String String,
      (solve beh = false
        ↔ (∀ s ∈ backendOrder, beh (some s) ≠ Except.ok "ok")
          ∧ ∃ e, beh none = Except.error e)
      ∧ (solve beh = true ∨ solve beh = false) := by
  intro beh
  constructor
  · rw [Bool.eq_false_iff, ne_eq, solve_eq_true_iff]
    constructor
    · intro h
      have hB : ∀ s ∈ backendOrder, beh (some s) ≠ Except.ok "ok" := by
        intro s hs hc
        exact h (Or.inl ⟨s, hs, hc⟩)
      refine ⟨hB, ?_⟩
      cases hb : beh none with
      | ok st => exact absurd (Or.inr ⟨hB, st, hb⟩) h
      | error e => exact ⟨e, rfl⟩
    · rintro ⟨hB, e, he⟩ (⟨s, hs, hc⟩ | ⟨_, st, hst⟩)
      · exact hB s hs hc
      · rw [he] at hst
        cases hst
  · cases h : solve beh
    · exact Or.inr rfl
    · exact Or.inl rfl

/-- A third total-failure behaviour, used to instantiate the amended C7
statement. -/
def behFailC : Option String → Except String String :=
  fun _ => Except.error "no solver available"

theorem c7_failure_reporting_amended_witness :
    solve behFailC = false
      ∧ (solve behFailC = true ∨ solve behFailC = false) :=
  ⟨(c7_failure_reporting_amended behFailC).1.mpr
      ⟨fun s hs hc => by simp [behFailC] at hc,
       "no solver available", rfl⟩,
   (c7_failure_reporting_amended behFailC).2⟩
